import Mathlib

/-!
Verification of the portfolio rebalancer (src/app.py together with the
data model of src/models.py and the migration schemas).

The numeric model is exact rational arithmetic: every Python float of the
program is embedded as a rational number, so all statements are about the
algorithms in exact arithmetic.  Python's `int(x)` (truncation towards
zero) is embedded as `pyInt`; Python dictionaries are embedded as
association lists with the insertion-order semantics of CPython dicts.
-/

namespace PortfolioRebalancer

/-! ## Data model (models.py / migrate_rebalance.py) -/

/-- A row of the `securities` table (the fields the rebalancing engine reads). -/
structure Security where
  id : Nat
  assetClassId : Nat
  currency : String
deriving Repr, DecidableEq

/-- A row of the `holdings` table.  `security` is the ORM relationship
(`holding.security`), which the planner tests for truthiness; `assetClassId`
is the holding's own `asset_class_id` column used by the allocation
calculator. -/
structure Holding where
  securityId : Nat
  security : Option Security
  quantity : ℚ
  price : ℚ
  currency : String
  assetClassId : Option Nat
deriving Repr, DecidableEq

/-- A row of the `accounts` table with its holdings. -/
structure Account where
  id : Nat
  currency : String
  isRegistered : Bool
  cashBalance : ℚ
  holdings : List Holding
deriving Repr, DecidableEq

/-- The JSON `account_config` payload of a `SecurityPreference`.
A missing key is `none`; a present key holds a list of account ids. -/
structure AccountConfig where
  allowed : Option (List Nat)
  priority1 : Option (List Nat)
  priority2 : Option (List Nat)
  priority3 : Option (List Nat)
deriving Repr, DecidableEq

/-- A row of the `security_preferences` table for the planning user. -/
structure SecurityPreference where
  securityId : Nat
  restrictionType : String
  accountConfig : Option AccountConfig
deriving Repr, DecidableEq

/-- A row of the `targets` table for the planning user. -/
structure Target where
  assetClassId : Nat
  targetPercentage : ℚ
deriving Repr, DecidableEq

/-- The planning user's portfolio snapshot: the user's rows plus the
tables the planner queries globally (`securities`, and the `holdings`
table used for the buy-price lookup `Holding.query.filter_by(security_id=...)`). -/
structure User where
  accounts : List Account
  targets : List Target
  securityPreferences : List SecurityPreference
  securities : List Security
  dbHoldings : List Holding
  balancedThreshold : Option ℚ
  tradingCostsEnabled : Bool
  baseCurrency : String
deriving Repr, DecidableEq

/-- A row of the `rebalance_transactions` table as constructed by
`generate_rebalance_transactions` (schema of migrate_rebalance.py). -/
structure RebalanceTransaction where
  accountId : Nat
  securityId : Option Nat
  action : String
  quantity : ℚ
  price : ℚ
  amount : ℚ
  currency : String
  executionOrder : Nat
  isFinalTrade : Bool
  requiresUserSelection : Bool
  availableSecurities : List Nat
  executed : Bool
deriving Repr, DecidableEq

/-! ## Python-semantics helpers -/

/-- Python's `int(x)` on a float: truncation towards zero. -/
def pyInt (x : ℚ) : ℤ := if x < 0 then -⌊-x⌋ else ⌊x⌋

/-- CPython dict assignment `d[k] = v`: update an existing key in place,
otherwise append at the end (insertion order preserved). -/
def dictInsert {β : Type} (d : List (Nat × β)) (k : Nat) (v : β) : List (Nat × β) :=
  match d with
  | [] => [(k, v)]
  | (k', v') :: rest => if k' = k then (k, v) :: rest else (k', v') :: dictInsert rest k v

/-- Python `k in d`. -/
def dictMem {β : Type} (d : List (Nat × β)) (k : Nat) : Bool :=
  d.any (fun p => p.1 == k)

/-- Python `d.get(k, default)` (and `d[k]` at call sites guarded by `k in d`). -/
def dictGetD {β : Type} (d : List (Nat × β)) (k : Nat) (default : β) : β :=
  match d.lookup k with
  | some v => v
  | none => default

/-- Python `d[k] -= v` on a dict of rationals (key assumed present). -/
def dictSub (d : List (Nat × ℚ)) (k : Nat) (v : ℚ) : List (Nat × ℚ) :=
  d.map (fun p => if p.1 = k then (p.1, p.2 - v) else p)

/-- Python `defaultdict(float)` update `d[k] += v`. -/
def dictAdd (d : List (Nat × ℚ)) (k : Nat) (v : ℚ) : List (Nat × ℚ) :=
  match d with
  | [] => [(k, v)]
  | (k', v') :: rest => if k' = k then (k', v' + v) :: rest else (k', v') :: dictAdd rest k v

/-- The exchange-rate table: keys are (from, to) currency pairs. -/
abbrev Rates := List ((String × String) × ℚ)

/-- `exchange_rates.get(f"{from}_TO_{to}", 1.0)`. -/
def lookupRate (rates : Rates) (fromCur toCur : String) : ℚ :=
  match rates.lookup (fromCur, toCur) with
  | some r => r
  | none => 1

/-! ## Allocation calculator (models.py `market_value`, app.py
`calculate_portfolio_allocation`, lines 123-141) -/

/-- `Holding.market_value`: quantity x price in the security's currency. -/
def Holding.marketValue (h : Holding) : ℚ := h.quantity * h.price

/-- `Holding.market_value_in_base_currency`. -/
def Holding.marketValueInBaseCurrency (h : Holding) (baseCurrency : String)
    (rates : Rates) : ℚ :=
  if h.currency = baseCurrency then h.marketValue
  else h.marketValue * lookupRate rates h.currency baseCurrency

/-- One iteration of the holding loop of `calculate_portfolio_allocation`:
unclassified holdings are skipped (excluded from both numerator and total). -/
def allocationStep (baseCurrency : String) (rates : Rates)
    (st : List (Nat × ℚ) × ℚ) (h : Holding) : List (Nat × ℚ) × ℚ :=
  let value := h.marketValueInBaseCurrency baseCurrency rates
  match h.assetClassId with
  | none => st
  | some assetClassId => (dictAdd st.1 assetClassId value, st.2 + value)

/-- `calculate_portfolio_allocation(user, exchange_rates)`:
returns (allocation, allocation_pct, total_value). -/
def calculatePortfolioAllocation (u : User) (rates : Rates) :
    List (Nat × ℚ) × List (Nat × ℚ) × ℚ :=
  let st := u.accounts.foldl
    (fun st account => account.holdings.foldl (allocationStep u.baseCurrency rates) st)
    ([], 0)
  let allocation := st.1
  let totalValue := st.2
  let allocationPct := allocation.map
    (fun p => (p.1, if totalValue > 0 then p.2 / totalValue * 100 else 0))
  (allocation, allocationPct, totalValue)

/-! ## Delta calculator (app.py `calculate_asset_class_deltas`, lines 189-214) -/

/-- One entry of the list produced by `calculate_asset_class_deltas`. -/
structure Delta where
  assetClassId : Nat
  currentValue : ℚ
  targetValue : ℚ
  dollarDiff : ℚ
  percentageDiff : ℚ
  currentPct : ℚ
  targetPct : ℚ
deriving Repr, DecidableEq

/-- `calculate_asset_class_deltas(user, exchange_rates)`:
returns (deltas, total_portfolio). -/
def calculateAssetClassDeltas (u : User) (rates : Rates) : List Delta × ℚ :=
  let alloc := calculatePortfolioAllocation u rates
  let allocation := alloc.1
  let allocationPct := alloc.2.1
  let totalPortfolio := alloc.2.2
  let deltas := u.targets.map (fun target =>
    let currentValue := dictGetD allocation target.assetClassId 0
    let currentPct := dictGetD allocationPct target.assetClassId 0
    let targetValue := totalPortfolio * target.targetPercentage / 100
    { assetClassId := target.assetClassId
      currentValue := currentValue
      targetValue := targetValue
      dollarDiff := targetValue - currentValue
      percentageDiff := currentPct - target.targetPercentage
      currentPct := currentPct
      targetPct := target.targetPercentage })
  (deltas, totalPortfolio)

/-- Python `user.balanced_threshold or 0.5` (app.py line 300): both a stored
`None` and a stored `0.0` are falsy, so both fall back to the default 0.5. -/
def effectiveBalancedThreshold (stored : Option ℚ) : ℚ :=
  match stored with
  | none => 1/2
  | some x => if x = 0 then 1/2 else x

/-- The balanced-threshold filter of the planner (app.py line 303):
keep the deltas with `abs(percentage_diff) > balanced_threshold`. -/
def filteredDeltas (u : User) (rates : Rates) : List Delta :=
  (calculateAssetClassDeltas u rates).1.filter
    (fun d => effectiveBalancedThreshold u.balancedThreshold < |d.percentageDiff|)

/-- The additional trading-costs filter (app.py lines 310-311):
keep the deltas with `abs(percentage_diff) >= 0.1`. -/
def costFilteredDeltas (u : User) (rates : Rates) : List Delta :=
  if u.tradingCostsEnabled then
    (filteredDeltas u rates).filter (fun d => (1 : ℚ)/10 ≤ |d.percentageDiff|)
  else filteredDeltas u rates

/-! ## Eligibility resolver (app.py `get_eligible_securities_for_account`,
lines 217-237, and the inline eligibility check of the planner, lines 415-435) -/

/-- `SecurityPreference.query.filter_by(user_id=..., security_id=...).first()`
as used in the planner (app.py lines 419-422). -/
def findPref (prefs : List SecurityPreference) (securityId : Nat) :
    Option SecurityPreference :=
  prefs.find? (fun p => p.securityId == securityId)

/-- The planner's inline `can_use` computation (app.py lines 424-431).
Note that the guards are Python truthiness tests: a missing `account_config`,
a missing key, and an empty id list are all treated as "no restriction". -/
def canUse (pref : Option SecurityPreference) (accountId : Nat) : Bool :=
  match pref with
  | none => true
  | some p =>
    if p.restrictionType = "restricted_to_accounts" then
      match p.accountConfig with
      | none => true
      | some cfg =>
        match cfg.allowed with
        | none => true
        | some allowed => if allowed.isEmpty then true else accountId ∈ allowed
    else if p.restrictionType = "prioritized_accounts" then
      match p.accountConfig with
      | none => true
      | some cfg =>
        match cfg.priority1 with
        | none => true
        | some priority1 => if priority1.isEmpty then true else accountId ∈ priority1
    else true

/-- `get_eligible_securities_for_account(asset_class_id, account, user)`
(app.py lines 217-237).  The `prefs` dict comprehension keeps the last
preference per security id, hence `getLast?` on the matching preferences. -/
def getEligibleSecuritiesForAccount (u : User) (assetClassId : Nat)
    (account : Account) : List Security :=
  (u.securities.filter (fun s => s.assetClassId == assetClassId)).filter
    (fun security =>
      match (u.securityPreferences.filter (fun p => p.securityId == security.id)).getLast? with
      | none => true
      | some pref =>
        if pref.restrictionType = "unrestricted" then true
        else if pref.restrictionType = "restricted_to_accounts" then
          let allowedIds := match pref.accountConfig with
            | none => ([] : List Nat)
            | some cfg => cfg.allowed.getD []
          account.id ∈ allowedIds
        else if pref.restrictionType = "prioritized_accounts" then true
        else false)

/-! ## Transaction planner (app.py `generate_rebalance_transactions`,
lines 248-508; the I/O preamble - price refresh, rate refresh, deletion of
the stale plan - is omitted as it does not affect the returned list) -/

/-- A scored candidate account (app.py lines 329-350). -/
structure Candidate where
  account : Account
  hasExisting : Bool
  sellableValue : ℚ
  accountValue : ℚ
  isRegistered : Bool
deriving Repr, DecidableEq

/-- Strict `<` on `Bool` as Python orders booleans: `False < True`. -/
def boolLt (a b : Bool) : Bool := !a && b

/-- Strict lexicographic comparison of the Python sort key
`(not has_existing, -sellable_value, not is_registered, -account_value)`
(app.py lines 353-358). -/
def candidateKeyLt (x y : Candidate) : Bool :=
  boolLt (!x.hasExisting) (!y.hasExisting) ||
    ((!x.hasExisting) == (!y.hasExisting) &&
      (decide (-x.sellableValue < -y.sellableValue) ||
        (decide (-x.sellableValue = -y.sellableValue) &&
          (boolLt (!x.isRegistered) (!y.isRegistered) ||
            ((!x.isRegistered) == (!y.isRegistered) &&
              decide (-x.accountValue < -y.accountValue))))))

/-- `sorted(candidate_accounts, key=...)[0]`: since Python's sort is stable,
this is the first candidate attaining the minimal key. -/
def firstMinCandidate : List Candidate → Option Candidate
  | [] => none
  | c :: cs => some (cs.foldl (fun best x => if candidateKeyLt x best then x else best) c)

/-- The mutable state of the sell loop (app.py lines 365-406). -/
structure SellState where
  remainingToSell : List (Nat × ℚ)
  cashAvailable : ℚ
  cashNeeded : ℚ
  transactions : List RebalanceTransaction
  executionOrder : Nat
deriving Repr, DecidableEq

/-- The SELL-generation loop over the selected account's holdings
(app.py lines 369-406). -/
def sellLoop (accountId : Nat) (st : SellState) : List Holding → SellState
  | [] => st
  | h :: hs =>
    if st.cashNeeded ≤ 1/100 then st
    else
      match h.security with
      | none => sellLoop accountId st hs
      | some s =>
        if s.assetClassId = 0 then sellLoop accountId st hs
        else if !(dictMem st.remainingToSell s.assetClassId) then sellLoop accountId st hs
        else
          let amountToSell :=
            min st.cashNeeded (min h.marketValue (dictGetD st.remainingToSell s.assetClassId 0))
          let quantityToSell := pyInt (amountToSell / h.price)
          let actualSell := (quantityToSell : ℚ) * h.price
          if quantityToSell < 1 then sellLoop accountId st hs
          else
            sellLoop accountId
              { remainingToSell := dictSub st.remainingToSell s.assetClassId actualSell
                cashAvailable := st.cashAvailable + actualSell
                cashNeeded := st.cashNeeded - actualSell
                transactions := st.transactions ++
                  [{ accountId := accountId
                     securityId := some h.securityId
                     action := "SELL"
                     quantity := (quantityToSell : ℚ)
                     price := h.price
                     amount := actualSell
                     currency := s.currency
                     executionOrder := st.executionOrder
                     isFinalTrade := false
                     requiresUserSelection := false
                     availableSecurities := []
                     executed := false }]
                executionOrder := st.executionOrder + 1 } hs

/-- An entry of the planner's `eligible` list (app.py lines 433-435). -/
structure EligibleEntry where
  security : Security
  existing : Bool
deriving Repr, DecidableEq

/-- Strict lexicographic comparison of the Python sort key
`(not x['existing'], x['security'].id)` (app.py line 441). -/
def eligLt (x y : EligibleEntry) : Bool :=
  boolLt (!x.existing) (!y.existing) ||
    ((!x.existing) == (!y.existing) && decide (x.security.id < y.security.id))

/-- Stable insertion of an entry into a key-sorted list. -/
def eligInsert (x : EligibleEntry) : List EligibleEntry → List EligibleEntry
  | [] => [x]
  | y :: ys => if eligLt y x then y :: eligInsert x ys else x :: y :: ys

/-- Python's stable `eligible.sort(key=...)`. -/
def eligSort (l : List EligibleEntry) : List EligibleEntry := l.foldr eligInsert []

/-- The mutable state of the planner's main loop. -/
structure PlanState where
  remainingToSell : List (Nat × ℚ)
  remainingToBuy : List (Nat × ℚ)
  transactions : List RebalanceTransaction
  executionOrder : Nat
deriving Repr, DecidableEq

/-- One iteration of the main loop over `underweight.items()`
(app.py lines 325-496). -/
def processUnderweight (u : User) (st : PlanState) (entry : Nat × ℚ) : PlanState :=
  let assetClassId := entry.1
  let buyAmount := entry.2
  let candidates := u.accounts.map (fun account =>
    ({ account := account
       hasExisting := account.holdings.any (fun h =>
         match h.security with
         | some s => s.assetClassId == assetClassId
         | none => false)
       sellableValue := account.holdings.foldl (fun acc h =>
         match h.security with
         | some s => if dictMem st.remainingToSell s.assetClassId then acc + h.marketValue else acc
         | none => acc) 0
       accountValue := account.holdings.foldl (fun acc h => acc + h.marketValue) 0
       isRegistered := account.isRegistered } : Candidate))
  match firstMinCandidate candidates with
  | none => st
  | some best =>
    let bestAccount := best.account
    let sellSt := sellLoop bestAccount.id
      { remainingToSell := st.remainingToSell
        cashAvailable := bestAccount.cashBalance
        cashNeeded := buyAmount
        transactions := st.transactions
        executionOrder := st.executionOrder } bestAccount.holdings
    let st' : PlanState :=
      { remainingToSell := sellSt.remainingToSell
        remainingToBuy := st.remainingToBuy
        transactions := sellSt.transactions
        executionOrder := sellSt.executionOrder }
    let amountToBuy := min buyAmount sellSt.cashAvailable
    if amountToBuy < 1 then st'
    else
      let classSecurities := u.securities.filter (fun s => s.assetClassId == assetClassId)
      let eligible := classSecurities.filterMap (fun security =>
        let preference := findPref u.securityPreferences security.id
        if canUse preference bestAccount.id then
          some ({ security := security
                  existing := bestAccount.holdings.any (fun h => h.securityId == security.id) } :
            EligibleEntry)
        else none)
      match eligible with
      | [] => st'
      | [e] =>
        let security := e.security
        let foundPrice : Option ℚ :=
          match bestAccount.holdings.find? (fun h => h.securityId == security.id) with
          | some existingHolding => some existingHolding.price
          | none =>
            (u.dbHoldings.find? (fun (h : Holding) => h.securityId == security.id)).map
              Holding.price
        match foundPrice with
        | none => st'
        | some price =>
          if price ≤ 0 then st'
          else
            let quantity := pyInt (amountToBuy / price)
            let actualBuy := (quantity : ℚ) * price
            if quantity < 1 then st'
            else
              { remainingToSell := st'.remainingToSell
                remainingToBuy := dictSub st'.remainingToBuy assetClassId amountToBuy
                transactions := st'.transactions ++
                  [{ accountId := bestAccount.id
                     securityId := some security.id
                     action := "BUY"
                     quantity := (quantity : ℚ)
                     price := price
                     amount := actualBuy
                     currency := security.currency
                     executionOrder := st'.executionOrder
                     isFinalTrade := false
                     requiresUserSelection := false
                     availableSecurities := []
                     executed := false }]
                executionOrder := st'.executionOrder + 1 }
      | es =>
        { remainingToSell := st'.remainingToSell
          remainingToBuy := dictSub st'.remainingToBuy assetClassId amountToBuy
          transactions := st'.transactions ++
            [{ accountId := bestAccount.id
               securityId := none
               action := "BUY"
               quantity := 0
               price := 0
               amount := amountToBuy
               currency := bestAccount.currency
               executionOrder := st'.executionOrder
               isFinalTrade := false
               requiresUserSelection := true
               availableSecurities := (eligSort es).map (fun x => x.security.id)
               executed := false }]
          executionOrder := st'.executionOrder + 1 }

/-- First pass of the final-trade marking (app.py lines 499-502): the dict
mapping each account id to the position of its last BUY transaction. -/
def lastBuyMapAux : Nat → List (Nat × Nat) → List RebalanceTransaction → List (Nat × Nat)
  | _, m, [] => m
  | i, m, txn :: rest =>
    lastBuyMapAux (i + 1) (if txn.action = "BUY" then dictInsert m txn.accountId i else m) rest

def lastBuyMap (txns : List RebalanceTransaction) : List (Nat × Nat) :=
  lastBuyMapAux 0 [] txns

/-- Second pass (app.py lines 504-505): set `is_final_trade` on exactly the
transaction objects stored in the dict. -/
def markAux (m : List (Nat × Nat)) : Nat → List RebalanceTransaction → List RebalanceTransaction
  | _, [] => []
  | i, txn :: rest =>
    (if m.any (fun p => p.2 == i) then { txn with isFinalTrade := true } else txn) ::
      markAux m (i + 1) rest

def markFinalTrades (txns : List RebalanceTransaction) : List RebalanceTransaction :=
  markAux (lastBuyMap txns) 0 txns

/-- The transaction list accumulated by the main loop of
`generate_rebalance_transactions` (app.py lines 313-496), before the
final-trade marking pass. -/
def planTransactions (u : User) (rates : Rates) : List RebalanceTransaction :=
  let deltas := costFilteredDeltas u rates
  let overweight := deltas.foldl
    (fun m d => if d.dollarDiff < 0 then dictInsert m d.assetClassId |d.dollarDiff| else m) []
  let underweight := deltas.foldl
    (fun m d => if d.dollarDiff > 0 then dictInsert m d.assetClassId |d.dollarDiff| else m) []
  let finalState := underweight.foldl (processUnderweight u)
    { remainingToSell := overweight
      remainingToBuy := underweight
      transactions := []
      executionOrder := 1 }
  finalState.transactions

/-- `generate_rebalance_transactions(user)` (app.py lines 248-508), as a
function of the portfolio snapshot and the exchange-rate table. -/
def generateRebalanceTransactions (u : User) (rates : Rates) : List RebalanceTransaction :=
  if (filteredDeltas u rates).isEmpty then []
  else markFinalTrades (planTransactions u rates)

/-! ## Transaction executor (app.py `execute_rebalance_transaction`,
lines 1145-1212) -/

/-- The portfolio state the executor can mutate: the accounts (holding
quantities and cash balances) and the transaction row itself (selected
security and executed flag). -/
structure ExecState where
  accounts : List Account
  txn : RebalanceTransaction
deriving Repr, DecidableEq

/-- SELL branch of the holdings update (app.py lines 1174-1178): decrement
the first matching holding's quantity, deleting it when it reaches zero or
below; if no holding matches, nothing happens. -/
def applySellToHoldings (txn : RebalanceTransaction) : List Holding → List Holding
  | [] => []
  | h :: hs =>
    if some h.securityId == txn.securityId then
      if h.quantity - txn.quantity ≤ 0 then hs
      else { h with quantity := h.quantity - txn.quantity } :: hs
    else h :: applySellToHoldings txn hs

/-- BUY branch of the holdings update (app.py lines 1179-1189): increment
the first matching holding's quantity, or create a new holding with the
transaction's quantity and price (other columns take their defaults). -/
def applyBuyToHoldings (txn : RebalanceTransaction) : List Holding → List Holding
  | [] =>
    [{ securityId := txn.securityId.getD 0, security := none, quantity := txn.quantity,
       price := txn.price, currency := "CAD", assetClassId := none }]
  | h :: hs =>
    if some h.securityId == txn.securityId then
      { h with quantity := h.quantity + txn.quantity } :: hs
    else h :: applyBuyToHoldings txn hs

/-- The mutation block of the executor (app.py lines 1167-1201): update the
holding, update the account's cash balance, mark the transaction executed. -/
def execBody (st : ExecState) : ExecState × Option String :=
  let txn := st.txn
  let accounts := st.accounts.map (fun account =>
    if account.id = txn.accountId then
      { account with
        holdings :=
          if txn.action = "SELL" then applySellToHoldings txn account.holdings
          else applyBuyToHoldings txn account.holdings
        cashBalance :=
          if txn.action = "SELL" then account.cashBalance + txn.amount
          else account.cashBalance - txn.amount }
    else account)
  ({ accounts := accounts, txn := { txn with executed := true } }, none)

/-- `execute_rebalance_transaction(transaction_id)` (app.py lines 1145-1212)
with the user's form selection passed explicitly.  When the transaction
requires a user selection and none is supplied, the request is rejected
(flash + redirect, app.py lines 1155-1160) before any mutation. -/
def executeRebalanceTransaction (st : ExecState) (selection : Option Nat) :
    ExecState × Option String :=
  if st.txn.requiresUserSelection then
    match selection with
    | none => (st, some "Please select a security")
    | some securityId =>
      execBody { st with txn := { st.txn with securityId := some securityId } }
  else execBody st

/-! ## Concrete portfolio snapshots used as test inputs -/

/-- A security of asset class 3: the basis position every example portfolio
holds so that the portfolio has a nonzero total value. -/
def exSecurity0 : Security := { id := 10, assetClassId := 3, currency := "CAD" }

/-- Three hundred dollars of `exSecurity0` (3 shares at 100). -/
def exHolding0 : Holding :=
  { securityId := 10, security := some exSecurity0, quantity := 3, price := 100,
    currency := "CAD", assetClassId := some 3 }

/-- The unique security of asset class 1 in the single-security examples. -/
def ex1Security : Security := { id := 11, assetClassId := 1, currency := "CAD" }

/-- One account with a 1000 cash balance and the basis position. -/
def ex1Account : Account :=
  { id := 1, currency := "CAD", isRegistered := false, cashBalance := 1000,
    holdings := [exHolding0] }

/-- A holding of `ex1Security` in some other user's account: it exists only
so that the planner's global price lookup finds a price of 50. -/
def ex1PriceHolding : Holding :=
  { securityId := 11, security := some ex1Security, quantity := 1, price := 50,
    currency := "CAD", assetClassId := some 1 }

/-- A `restricted_to_accounts` preference for security 11 whose `allowed`
list is present but empty. -/
def restrictedEmptyPref : SecurityPreference :=
  { securityId := 11, restrictionType := "restricted_to_accounts",
    accountConfig := some
      { allowed := some [], priority1 := none, priority2 := none, priority3 := none } }

/-- Snapshot for the empty-`allowed` scenario: security 11 (asset class 1,
restricted to the empty account set) is the only candidate for the
underweight class 1 (target 40 percent, current 0). -/
def restrictedEmptyUser : User :=
  { accounts := [ex1Account],
    targets := [{ assetClassId := 1, targetPercentage := 40 }],
    securityPreferences := [restrictedEmptyPref],
    securities := [exSecurity0, ex1Security],
    dbHoldings := [ex1PriceHolding],
    balancedThreshold := none, tradingCostsEnabled := false, baseCurrency := "CAD" }

/-- The same snapshot with `allowed = [1]` (the one existing account). -/
def restrictedAllowedUser : User :=
  { restrictedEmptyUser with
    securityPreferences :=
      [{ securityId := 11, restrictionType := "restricted_to_accounts",
         accountConfig := some
           { allowed := some [1], priority1 := none, priority2 := none, priority3 := none } }] }

/-- A `prioritized_accounts` preference for security 11 whose `priority_1`
list names only account 2, which the user does not own. -/
def prioritizedPref : SecurityPreference :=
  { securityId := 11, restrictionType := "prioritized_accounts",
    accountConfig := some
      { allowed := none, priority1 := some [2], priority2 := none, priority3 := none } }

/-- Snapshot for the prioritized scenario: security 11 carries a
`prioritized_accounts` preference with `priority_1 = [2]`, but the user's
only account is account 1. -/
def prioritizedExcludedUser : User :=
  { restrictedEmptyUser with securityPreferences := [prioritizedPref] }

/-- The same snapshot with `priority_1 = [1]` (the one existing account). -/
def prioritizedListedUser : User :=
  { restrictedEmptyUser with
    securityPreferences :=
      [{ securityId := 11, restrictionType := "prioritized_accounts",
         accountConfig := some
           { allowed := none, priority1 := some [1], priority2 := none, priority3 := none } }] }

/-- Snapshot for the cash-conservation scenario: one account with only 100
of cash and the 300 basis position in class 3; classes 1 and 2 are both
underweight by 120, and each has two candidate securities (so the planner
emits user-selection BUY transactions without needing prices). -/
def doubleSpendUser : User :=
  { accounts := [{ id := 1, currency := "CAD", isRegistered := false, cashBalance := 100,
                   holdings := [exHolding0] }],
    targets := [{ assetClassId := 1, targetPercentage := 40 },
                { assetClassId := 2, targetPercentage := 40 }],
    securityPreferences := [],
    securities := [{ id := 11, assetClassId := 1, currency := "CAD" },
                   { id := 12, assetClassId := 1, currency := "CAD" },
                   { id := 21, assetClassId := 2, currency := "CAD" },
                   { id := 22, assetClassId := 2, currency := "CAD" }],
    dbHoldings := [],
    balancedThreshold := none, tradingCostsEnabled := false, baseCurrency := "CAD" }

/-- A snapshot whose single target exactly matches the current allocation
(class 3 at 100 percent), so every percentage difference is zero. -/
def balancedUser : User :=
  { accounts := [ex1Account],
    targets := [{ assetClassId := 3, targetPercentage := 100 }],
    securityPreferences := [],
    securities := [exSecurity0],
    dbHoldings := [],
    balancedThreshold := none, tradingCostsEnabled := false, baseCurrency := "CAD" }

/-- A snapshot with no holdings at all: total portfolio value zero. -/
def emptyUser : User :=
  { accounts := [{ id := 1, currency := "CAD", isRegistered := false, cashBalance := 0,
                   holdings := [] }],
    targets := [{ assetClassId := 1, targetPercentage := 40 }],
    securityPreferences := [], securities := [], dbHoldings := [],
    balancedThreshold := none, tradingCostsEnabled := false, baseCurrency := "CAD" }

/-- The double-spend snapshot with a stored threshold of exactly 0 and
trading costs enabled. -/
def zeroThresholdUser : User :=
  { doubleSpendUser with balancedThreshold := some 0, tradingCostsEnabled := true }

/-- A pending user-selection BUY transaction for the executor examples. -/
def exSelectionTxn : RebalanceTransaction :=
  { accountId := 1, securityId := none, action := "BUY", quantity := 0, price := 0,
    amount := 100, currency := "CAD", executionOrder := 1, isFinalTrade := false,
    requiresUserSelection := true, availableSecurities := [11, 12], executed := false }

/-- Executor state holding the example account and the pending transaction. -/
def exExecState : ExecState := { accounts := [ex1Account], txn := exSelectionTxn }

/-- Security of asset class 5 used in the sell-step example. -/
def exSellSecurity : Security := { id := 7, assetClassId := 5, currency := "CAD" }

/-- Holding of 10 shares at 30 for the sell-step example. -/
def exSellHolding : Holding :=
  { securityId := 7, security := some exSellSecurity, quantity := 10, price := 30,
    currency := "CAD", assetClassId := some 5 }

/-- Sell-loop state for the sell-step example: class 5 still has 80 to
sell portfolio-wide and 60 of cash is needed. -/
def exSellState : SellState :=
  { remainingToSell := [(5, 80)], cashAvailable := 0, cashNeeded := 60,
    transactions := [], executionOrder := 1 }

/-- The delta entry the double-spend snapshot produces for asset class 1. -/
def exDelta : Delta :=
  { assetClassId := 1, currentValue := 0, targetValue := 120, dollarDiff := 120,
    percentageDiff := -40, currentPct := 0, targetPct := 40 }

/-- The single-security snapshot with no preference at all, for contrast
with the restricted and prioritized variants. -/
def unrestrictedUser : User :=
  { restrictedEmptyUser with securityPreferences := [] }

/-- The transaction at position 1 of the double-spend snapshot's plan: the
second user-selection BUY, flagged as the account's final trade. -/
def exFinalTxn : RebalanceTransaction :=
  { accountId := 1, securityId := none, action := "BUY", quantity := 0, price := 0,
    amount := 100, currency := "CAD", executionOrder := 2, isFinalTrade := true,
    requiresUserSelection := true, availableSecurities := [21, 22], executed := false }

/-- Provenance invariant for transactions created by the planner's main
loop: they are created with `is_final_trade = False`, and a BUY with a
concrete security was emitted only after the inline `can_use` check passed
for its account. -/
def GeneratedOk (prefs : List SecurityPreference) (t : RebalanceTransaction) : Prop :=
  t.isFinalTrade = false ∧
    (t.action = "BUY" → ∀ sid, t.securityId = some sid →
      canUse (findPref prefs sid) t.accountId = true)

/-! ## Theorems -/

/-- C9: a transaction with `requires_user_selection = true` executed without
a security selection is rejected with a validation error, and no state is
mutated: the accounts (holding quantities, cash balances) and the
transaction's executed flag are returned unchanged. -/
theorem executor_rejects_missing_selection (st : ExecState) (selection : Option Nat)
    (hreq : st.txn.requiresUserSelection = true) (hsel : selection = none) :
    (executeRebalanceTransaction st selection).1 = st ∧
      (executeRebalanceTransaction st selection).2.isSome = true := by
  subst hsel
  simp [executeRebalanceTransaction, hreq]

/-- C9 witness: the concrete pending-selection transaction is rejected
unchanged when no selection is supplied. -/
theorem executor_rejects_missing_selection_witness :
    exExecState.txn.requiresUserSelection = true ∧
      (executeRebalanceTransaction exExecState none).1 = exExecState ∧
      (executeRebalanceTransaction exExecState none).2.isSome = true :=
  ⟨rfl, (executor_rejects_missing_selection exExecState none rfl rfl).1,
    (executor_rejects_missing_selection exExecState none rfl rfl).2⟩

/-- C10: when the stored balanced threshold is `None` or exactly 0, the
planner behaves exactly as if the default threshold 0.5 were stored - a
threshold set to zero is never applied as zero. -/
theorem zero_threshold_defaults (u : User) (rates : Rates)
    (h : u.balancedThreshold = none ∨ u.balancedThreshold = some 0) :
    generateRebalanceTransactions u rates =
      generateRebalanceTransactions { u with balancedThreshold := some (1/2) } rates := by
  obtain ⟨a, t, p, s, d, bt, tc, bc⟩ := u
  simp only at h
  rcases h with h | h <;> subst h <;> with_unfolding_all rfl

/-- C10 witness: the zero-threshold snapshot plans identically to its
copy with the default threshold 0.5. -/
theorem zero_threshold_defaults_witness :
    (zeroThresholdUser.balancedThreshold = none ∨
        zeroThresholdUser.balancedThreshold = some 0) ∧
      generateRebalanceTransactions zeroThresholdUser [] =
        generateRebalanceTransactions
          { zeroThresholdUser with balancedThreshold := some (1/2) } [] :=
  ⟨Or.inr rfl, zero_threshold_defaults zeroThresholdUser [] (Or.inr rfl)⟩

/-- C6: when every target's percentage difference is within the balanced
threshold, the planning run returns the empty transaction list (success,
not failure). -/
theorem balanced_portfolio_empty_plan (u : User) (rates : Rates)
    (h : ∀ d ∈ (calculateAssetClassDeltas u rates).1,
        |d.percentageDiff| ≤ effectiveBalancedThreshold u.balancedThreshold) :
    generateRebalanceTransactions u rates = [] := by
  have hfil : filteredDeltas u rates = [] := by
    unfold filteredDeltas
    rw [List.filter_eq_nil_iff]
    intro d hd
    simp only [decide_eq_true_eq, not_lt]
    exact h d hd
  unfold generateRebalanceTransactions
  rw [hfil]
  rfl

/-- C6 witness: the exactly-on-target snapshot is balanced and plans the
empty transaction list. -/
theorem balanced_portfolio_empty_plan_witness :
    (∀ d ∈ (calculateAssetClassDeltas balancedUser []).1,
        |d.percentageDiff| ≤ effectiveBalancedThreshold balancedUser.balancedThreshold) ∧
      generateRebalanceTransactions balancedUser [] = [] :=
  ⟨by with_unfolding_all decide,
    balanced_portfolio_empty_plan balancedUser [] (by with_unfolding_all decide)⟩

/-- C5: for every target the delta entry satisfies
`target_value = total x target_pct / 100`, `dollar_diff = target_value -
current_value` and `percentage_diff = current_pct - target_pct`; the planner
keeps exactly the deltas with `abs(percentage_diff) > balanced_threshold`,
and with trading costs enabled additionally keeps exactly those with
`abs(percentage_diff) >= 0.1`. -/
theorem delta_formulas_and_filters (u : User) (rates : Rates) :
    (∀ d ∈ (calculateAssetClassDeltas u rates).1,
        d.targetValue = (calculateAssetClassDeltas u rates).2 * d.targetPct / 100 ∧
        d.dollarDiff = d.targetValue - d.currentValue ∧
        d.percentageDiff = d.currentPct - d.targetPct) ∧
    (∀ d : Delta, d ∈ filteredDeltas u rates ↔
        (d ∈ (calculateAssetClassDeltas u rates).1 ∧
          effectiveBalancedThreshold u.balancedThreshold < |d.percentageDiff|)) ∧
    (u.tradingCostsEnabled = true → ∀ d : Delta,
        d ∈ costFilteredDeltas u rates ↔
          (d ∈ filteredDeltas u rates ∧ (1 : ℚ)/10 ≤ |d.percentageDiff|)) := by
  refine ⟨?_, ?_, ?_⟩
  · intro d hd
    unfold calculateAssetClassDeltas at hd ⊢
    simp only [List.mem_map] at hd
    obtain ⟨t, _, rfl⟩ := hd
    simp
  · intro d
    unfold filteredDeltas
    simp [List.mem_filter]
  · intro htc d
    unfold costFilteredDeltas
    rw [if_pos htc]
    simp [List.mem_filter]

/-- C5 witness: the concrete class-1 delta of the double-spend snapshot
satisfies the formulas, and the trading-costs filter characterization holds
at the trading-costs-enabled snapshot. -/
theorem delta_formulas_and_filters_witness :
    (exDelta ∈ (calculateAssetClassDeltas doubleSpendUser []).1) ∧
    (exDelta.targetValue = (calculateAssetClassDeltas doubleSpendUser []).2 * exDelta.targetPct / 100 ∧
      exDelta.dollarDiff = exDelta.targetValue - exDelta.currentValue ∧
      exDelta.percentageDiff = exDelta.currentPct - exDelta.targetPct) ∧
    (exDelta ∈ filteredDeltas doubleSpendUser [] ↔
      (exDelta ∈ (calculateAssetClassDeltas doubleSpendUser []).1 ∧
        effectiveBalancedThreshold doubleSpendUser.balancedThreshold < |exDelta.percentageDiff|)) ∧
    (zeroThresholdUser.tradingCostsEnabled = true) ∧
    (exDelta ∈ costFilteredDeltas zeroThresholdUser [] ↔
      (exDelta ∈ filteredDeltas zeroThresholdUser [] ∧
        (1 : ℚ)/10 ≤ |exDelta.percentageDiff|)) := by
  have h1 : exDelta ∈ (calculateAssetClassDeltas doubleSpendUser []).1 := by
    with_unfolding_all decide
  exact ⟨h1, (delta_formulas_and_filters doubleSpendUser []).1 exDelta h1,
    (delta_formulas_and_filters doubleSpendUser []).2.1 exDelta, rfl,
    (delta_formulas_and_filters zeroThresholdUser []).2.2 rfl exDelta⟩

lemma dictAdd_sndSum (d : List (Nat × ℚ)) (k : Nat) (v : ℚ) :
    ((dictAdd d k v).map Prod.snd).sum = (d.map Prod.snd).sum + v := by
  induction d with
  | nil => simp [dictAdd]
  | cons p rest ih =>
    obtain ⟨k', v'⟩ := p
    by_cases hk : k' = k
    · simp only [dictAdd, if_pos hk, List.map_cons, List.sum_cons]
      ring
    · simp only [dictAdd, if_neg hk, List.map_cons, List.sum_cons, ih]
      ring

lemma allocation_holdings_sndSum (bc : String) (rates : Rates) :
    ∀ (hs : List Holding) (st : List (Nat × ℚ) × ℚ),
      (st.1.map Prod.snd).sum = st.2 →
      (((hs.foldl (allocationStep bc rates) st).1.map Prod.snd).sum =
        (hs.foldl (allocationStep bc rates) st).2) := by
  intro hs
  induction hs with
  | nil => intro st hst; simpa using hst
  | cons h rest ih =>
    intro st hst
    simp only [List.foldl_cons]
    apply ih
    unfold allocationStep
    rcases hac : h.assetClassId with _ | ac
    · simpa using hst
    · simp [dictAdd_sndSum, hst]

lemma allocation_accounts_sndSum (bc : String) (rates : Rates) :
    ∀ (accs : List Account) (st : List (Nat × ℚ) × ℚ),
      (st.1.map Prod.snd).sum = st.2 →
      (((accs.foldl (fun st a => a.holdings.foldl (allocationStep bc rates) st) st).1.map
          Prod.snd).sum =
        (accs.foldl (fun st a => a.holdings.foldl (allocationStep bc rates) st) st).2) := by
  intro accs
  induction accs with
  | nil => intro st hst; simpa using hst
  | cons a rest ih =>
    intro st hst
    simp only [List.foldl_cons]
    exact ih _ (allocation_holdings_sndSum bc rates a.holdings st hst)

lemma sum_map_div_mul (l : List (Nat × ℚ)) (T : ℚ) :
    (l.map (fun p => p.2 / T * 100)).sum = (l.map Prod.snd).sum / T * 100 := by
  induction l with
  | nil => simp
  | cons p rest ih =>
    simp only [List.map_cons, List.sum_cons, ih]
    ring

/-- C8: the allocation percentages sum to exactly 100 whenever the total
portfolio value is positive, and are all zero when the total value is zero
(the division is guarded, never performed on zero). -/
theorem allocation_percentages (u : User) (rates : Rates) :
    (0 < (calculatePortfolioAllocation u rates).2.2 →
      (((calculatePortfolioAllocation u rates).2.1).map Prod.snd).sum = 100) ∧
    ((calculatePortfolioAllocation u rates).2.2 = 0 →
      ∀ p ∈ (calculatePortfolioAllocation u rates).2.1, p.2 = 0) := by
  have hF := allocation_accounts_sndSum u.baseCurrency rates u.accounts ([], 0) (by simp)
  constructor
  · intro hpos
    unfold calculatePortfolioAllocation at hpos ⊢
    simp only at hpos ⊢
    rw [List.map_map]
    have hmap :
        (Prod.snd ∘ fun p : Nat × ℚ =>
            (p.1,
              if (u.accounts.foldl
                    (fun st a => a.holdings.foldl (allocationStep u.baseCurrency rates) st)
                    ([], 0)).2 > 0 then
                p.2 /
                    (u.accounts.foldl
                      (fun st a => a.holdings.foldl (allocationStep u.baseCurrency rates) st)
                      ([], 0)).2 *
                  100
              else 0)) =
          fun p : Nat × ℚ =>
            p.2 /
                (u.accounts.foldl
                  (fun st a => a.holdings.foldl (allocationStep u.baseCurrency rates) st)
                  ([], 0)).2 *
              100 := by
      funext p
      simp [hpos]
    rw [hmap, sum_map_div_mul, hF, div_self (ne_of_gt hpos)]
    norm_num
  · intro hzero p hp
    unfold calculatePortfolioAllocation at hzero hp
    simp only [List.mem_map] at hp
    obtain ⟨q, _, rfl⟩ := hp
    simp only at hzero ⊢
    rw [hzero]
    norm_num

/-- C8 witness: the 300-dollar snapshot's percentages sum to 100, and the
empty snapshot's percentages are all zero. -/
theorem allocation_percentages_witness :
    (0 < (calculatePortfolioAllocation restrictedEmptyUser []).2.2 ∧
      (((calculatePortfolioAllocation restrictedEmptyUser []).2.1).map Prod.snd).sum = 100) ∧
    ((calculatePortfolioAllocation emptyUser []).2.2 = 0 ∧
      ∀ p ∈ (calculatePortfolioAllocation emptyUser []).2.1, p.2 = 0) := by
  have h1 : 0 < (calculatePortfolioAllocation restrictedEmptyUser []).2.2 := by
    with_unfolding_all decide
  have h2 : (calculatePortfolioAllocation emptyUser []).2.2 = 0 := by
    with_unfolding_all decide
  exact ⟨⟨h1, (allocation_percentages restrictedEmptyUser []).1 h1⟩,
    ⟨h2, (allocation_percentages emptyUser []).2 h2⟩⟩

/-- C4: for a holding considered by the sell loop (cash still needed, the
holding's asset class still overweight), the candidate sell amount is
`min(cash_needed, market_value, remaining_to_sell)`, the share count is
the floor of `sell_amount / price`; a zero share count produces no
transaction and leaves the state unchanged, and otherwise the emitted SELL
carries `amount = shares x price` while `remaining_to_sell` and
`cash_needed` are decremented and the available cash incremented by that
realized amount. -/
theorem sell_loop_step (accountId : Nat) (st : SellState) (h : Holding)
    (hs : List Holding) (s : Security)
    (hsec : h.security = some s) (hac : s.assetClassId ≠ 0)
    (hcash : ¬ st.cashNeeded ≤ 1/100)
    (hmem : dictMem st.remainingToSell s.assetClassId = true)
    (hqty : 0 ≤ h.quantity) (hprice : 0 < h.price)
    (hrem : 0 ≤ dictGetD st.remainingToSell s.assetClassId 0)
    (sellAmount : ℚ)
    (hsa : sellAmount =
      min st.cashNeeded (min h.marketValue (dictGetD st.remainingToSell s.assetClassId 0)))
    (shares : ℤ) (hsh : shares = ⌊sellAmount / h.price⌋) :
    (shares = 0 → sellLoop accountId st (h :: hs) = sellLoop accountId st hs) ∧
    (1 ≤ shares →
      sellLoop accountId st (h :: hs) =
        sellLoop accountId
          { remainingToSell := dictSub st.remainingToSell s.assetClassId ((shares : ℚ) * h.price)
            cashAvailable := st.cashAvailable + (shares : ℚ) * h.price
            cashNeeded := st.cashNeeded - (shares : ℚ) * h.price
            transactions := st.transactions ++
              [{ accountId := accountId
                 securityId := some h.securityId
                 action := "SELL"
                 quantity := (shares : ℚ)
                 price := h.price
                 amount := (shares : ℚ) * h.price
                 currency := s.currency
                 executionOrder := st.executionOrder
                 isFinalTrade := false
                 requiresUserSelection := false
                 availableSecurities := []
                 executed := false }]
            executionOrder := st.executionOrder + 1 } hs) := by
  have hsa0 : 0 ≤ sellAmount := by
    rw [hsa]
    refine le_min (le_of_lt (lt_of_le_of_lt (by norm_num) (not_le.mp hcash))) (le_min ?_ hrem)
    exact mul_nonneg hqty (le_of_lt hprice)
  have hdiv0 : 0 ≤ sellAmount / h.price := div_nonneg hsa0 (le_of_lt hprice)
  have hpy : pyInt (sellAmount / h.price) = shares := by
    rw [hsh]
    unfold pyInt
    rw [if_neg (not_lt.2 hdiv0)]
  have hstep : sellLoop accountId st (h :: hs) =
      (if shares < 1 then sellLoop accountId st hs
       else
         sellLoop accountId
           { remainingToSell := dictSub st.remainingToSell s.assetClassId ((shares : ℚ) * h.price)
             cashAvailable := st.cashAvailable + (shares : ℚ) * h.price
             cashNeeded := st.cashNeeded - (shares : ℚ) * h.price
             transactions := st.transactions ++
               [{ accountId := accountId
                  securityId := some h.securityId
                  action := "SELL"
                  quantity := (shares : ℚ)
                  price := h.price
                  amount := (shares : ℚ) * h.price
                  currency := s.currency
                  executionOrder := st.executionOrder
                  isFinalTrade := false
                  requiresUserSelection := false
                  availableSecurities := []
                  executed := false }]
             executionOrder := st.executionOrder + 1 } hs) := by
    conv_lhs => rw [sellLoop]
    rw [if_neg hcash, hsec]
    simp only
    rw [if_neg hac, hmem]
    simp only [Bool.not_true, Bool.false_eq_true, if_false, ← hsa, hpy]
  constructor
  · intro hzero
    rw [hstep, if_pos (by rw [hzero]; norm_num)]
  · intro hone
    rw [hstep, if_neg (not_lt.2 hone)]

/-- C4 witness: with 60 of cash needed, an 80 remaining-to-sell for class 5
and a 10-share holding at price 30, the sell amount is 60, the share count
is 2 and the emitted SELL realizes 60, updating all three running totals. -/
theorem sell_loop_step_witness :
    (exSellHolding.security = some exSellSecurity ∧ exSellSecurity.assetClassId ≠ 0 ∧
      ¬ exSellState.cashNeeded ≤ 1/100 ∧
      dictMem exSellState.remainingToSell exSellSecurity.assetClassId = true ∧
      (0 : ℚ) ≤ exSellHolding.quantity ∧ 0 < exSellHolding.price ∧
      (0 : ℚ) ≤ dictGetD exSellState.remainingToSell exSellSecurity.assetClassId 0 ∧
      (60 : ℚ) =
        min exSellState.cashNeeded
          (min exSellHolding.marketValue
            (dictGetD exSellState.remainingToSell exSellSecurity.assetClassId 0)) ∧
      (2 : ℤ) = ⌊(60 : ℚ) / exSellHolding.price⌋) ∧
    sellLoop 1 exSellState [exSellHolding] =
      sellLoop 1
        { remainingToSell :=
            dictSub exSellState.remainingToSell exSellSecurity.assetClassId
              (((2 : ℤ) : ℚ) * exSellHolding.price)
          cashAvailable := exSellState.cashAvailable + ((2 : ℤ) : ℚ) * exSellHolding.price
          cashNeeded := exSellState.cashNeeded - ((2 : ℤ) : ℚ) * exSellHolding.price
          transactions := exSellState.transactions ++
            [{ accountId := 1
               securityId := some exSellHolding.securityId
               action := "SELL"
               quantity := ((2 : ℤ) : ℚ)
               price := exSellHolding.price
               amount := ((2 : ℤ) : ℚ) * exSellHolding.price
               currency := exSellSecurity.currency
               executionOrder := exSellState.executionOrder
               isFinalTrade := false
               requiresUserSelection := false
               availableSecurities := []
               executed := false }]
          executionOrder := exSellState.executionOrder + 1 } [] := by
  refine ⟨⟨rfl, by decide, by with_unfolding_all decide, by decide, by with_unfolding_all decide,
    by with_unfolding_all decide, by with_unfolding_all decide, by with_unfolding_all decide,
    by with_unfolding_all decide⟩, ?_⟩
  exact (sell_loop_step 1 exSellState exSellHolding [] exSellSecurity rfl (by decide)
    (by with_unfolding_all decide) (by decide) (by with_unfolding_all decide)
    (by with_unfolding_all decide) (by with_unfolding_all decide) 60
    (by with_unfolding_all decide) 2 (by with_unfolding_all decide)).2 (by decide)

lemma sellLoop_ok (prefs : List SecurityPreference) (accountId : Nat) :
    ∀ (hs : List Holding) (st : SellState),
      (∀ t ∈ st.transactions, GeneratedOk prefs t) →
      ∀ t ∈ (sellLoop accountId st hs).transactions, GeneratedOk prefs t := by
  intro hs
  induction hs with
  | nil => intro st hst; simpa [sellLoop] using hst
  | cons h rest ih =>
    intro st hst
    rw [sellLoop]
    split
    · exact hst
    · split
      · exact ih st hst
      · split
        · exact ih st hst
        · split
          · exact ih st hst
          · dsimp only
            split
            · exact ih st hst
            · apply ih
              intro t ht
              rcases List.mem_append.mp ht with h1 | h2
              · exact hst t h1
              · rw [List.mem_singleton] at h2
                subst h2
                exact ⟨rfl, by intro hbuy; simp at hbuy⟩

lemma processUnderweight_ok (u : User) (st : PlanState) (entry : Nat × ℚ)
    (hst : ∀ t ∈ st.transactions, GeneratedOk u.securityPreferences t) :
    ∀ t ∈ (processUnderweight u st entry).transactions, GeneratedOk u.securityPreferences t := by
  unfold processUnderweight
  dsimp only
  split
  · exact hst
  · rename_i best hbest
    have hsell := sellLoop_ok u.securityPreferences best.account.id best.account.holdings
      { remainingToSell := st.remainingToSell
        cashAvailable := best.account.cashBalance
        cashNeeded := entry.2
        transactions := st.transactions
        executionOrder := st.executionOrder } hst
    split
    · exact hsell
    · split
      · exact hsell
      · rename_i e helig
        split
        · exact hsell
        · split
          · exact hsell
          · split
            · exact hsell
            · intro t ht
              rcases List.mem_append.mp ht with h1 | h2
              · exact hsell t h1
              · rw [List.mem_singleton] at h2
                subst h2
                refine ⟨rfl, ?_⟩
                intro _ sid hsid
                rw [Option.some.injEq] at hsid
                subst hsid
                have hmem : e ∈ (u.securities.filter
                    (fun s => s.assetClassId == entry.1)).filterMap
                    (fun security =>
                      if canUse (findPref u.securityPreferences security.id) best.account.id then
                        some ({ security := security
                                existing := best.account.holdings.any
                                  (fun h => h.securityId == security.id) } : EligibleEntry)
                      else none) := by
                  rw [helig]
                  exact List.mem_singleton_self e
                obtain ⟨sec, _, hfeq⟩ := List.mem_filterMap.mp hmem
                by_cases hcu : canUse (findPref u.securityPreferences sec.id)
                    best.account.id = true
                · rw [if_pos hcu, Option.some.injEq] at hfeq
                  have hse : e.security = sec := by rw [← hfeq]
                  rw [hse]
                  exact hcu
                · rw [if_neg hcu] at hfeq
                  exact absurd hfeq (by simp)
      · intro t ht
        rcases List.mem_append.mp ht with h1 | h2
        · exact hsell t h1
        · rw [List.mem_singleton] at h2
          subst h2
          exact ⟨rfl, by intro _ sid hsid; simp at hsid⟩

lemma foldl_processUnderweight_ok (u : User) :
    ∀ (entries : List (Nat × ℚ)) (st : PlanState),
      (∀ t ∈ st.transactions, GeneratedOk u.securityPreferences t) →
      ∀ t ∈ (entries.foldl (processUnderweight u) st).transactions,
        GeneratedOk u.securityPreferences t := by
  intro entries
  induction entries with
  | nil => intro st hst; simpa using hst
  | cons e rest ih =>
    intro st hst
    simp only [List.foldl_cons]
    exact ih _ (processUnderweight_ok u st e hst)

lemma planTransactions_ok (u : User) (rates : Rates) :
    ∀ t ∈ planTransactions u rates, GeneratedOk u.securityPreferences t := by
  unfold planTransactions
  exact foldl_processUnderweight_ok u _ _ (by simp)

lemma markAux_shape (m : List (Nat × Nat)) :
    ∀ (ts : List RebalanceTransaction) (i : Nat) (t' : RebalanceTransaction),
      t' ∈ markAux m i ts →
      ∃ t ∈ ts, t'.action = t.action ∧ t'.securityId = t.securityId ∧
        t'.accountId = t.accountId := by
  intro ts
  induction ts with
  | nil => intro i t' ht'; simp [markAux] at ht'
  | cons t rest ih =>
    intro i t' ht'
    rw [markAux] at ht'
    rcases List.mem_cons.mp ht' with h1 | h2
    · refine ⟨t, List.mem_cons_self t rest, ?_⟩
      subst h1
      split <;> exact ⟨rfl, rfl, rfl⟩
    · obtain ⟨t0, ht0, hprops⟩ := ih (i + 1) t' h2
      exact ⟨t0, List.mem_cons_of_mem t ht0, hprops⟩

lemma plan_buy_canUse (u : User) (rates : Rates) :
    ∀ t ∈ generateRebalanceTransactions u rates, t.action = "BUY" →
      ∀ sid, t.securityId = some sid →
        canUse (findPref u.securityPreferences sid) t.accountId = true := by
  intro t ht hbuy sid hsid
  unfold generateRebalanceTransactions at ht
  split at ht
  · simp at ht
  · unfold markFinalTrades at ht
    obtain ⟨t0, ht0, ha, hs, hacc⟩ := markAux_shape _ _ _ _ ht
    have := (planTransactions_ok u rates t0 ht0).2 (ha.symm.trans hbuy) sid (hs.symm.trans hsid)
    rw [hacc]
    exact this

/-- C1 (amended): every BUY transaction of a security whose preference is
`restricted_to_accounts` with a non-empty `allowed` list is placed in an
account whose id is in `allowed`.  (When the list is empty or missing the
planner treats the security as unrestricted - see the counterexample.) -/
theorem restricted_buy_within_allowed (u : User) (rates : Rates)
    (t : RebalanceTransaction) (ht : t ∈ generateRebalanceTransactions u rates)
    (hbuy : t.action = "BUY") (sid : Nat) (hsid : t.securityId = some sid)
    (p : SecurityPreference) (hp : findPref u.securityPreferences sid = some p)
    (hr : p.restrictionType = "restricted_to_accounts")
    (cfg : AccountConfig) (hcfg : p.accountConfig = some cfg)
    (allowed : List Nat) (hl : cfg.allowed = some allowed) (hne : allowed ≠ []) :
    t.accountId ∈ allowed := by
  have hcu := plan_buy_canUse u rates t ht hbuy sid hsid
  rw [hp] at hcu
  obtain ⟨psid, ptype, pcfg⟩ := p
  simp only at hr hcfg
  subst hr
  subst hcfg
  obtain ⟨al, p1, p2, p3⟩ := cfg
  simp only at hl
  subst hl
  have hie : allowed.isEmpty = false := by
    cases allowed with
    | nil => exact absurd rfl hne
    | cons a l => rfl
  simp [canUse, hie] at hcu
  exact hcu

/-- C3 (amended): a `prioritized_accounts` preference with a non-empty
`priority_1` list is treated by the planner's buy step as a restriction,
not a mere ranking: every BUY transaction it emits for that security is
placed in an account listed in `priority_1` (accounts outside the list are
excluded - see the counterexample). -/
theorem prioritized_buy_within_priority1 (u : User) (rates : Rates)
    (t : RebalanceTransaction) (ht : t ∈ generateRebalanceTransactions u rates)
    (hbuy : t.action = "BUY") (sid : Nat) (hsid : t.securityId = some sid)
    (p : SecurityPreference) (hp : findPref u.securityPreferences sid = some p)
    (hr : p.restrictionType = "prioritized_accounts")
    (cfg : AccountConfig) (hcfg : p.accountConfig = some cfg)
    (priority1 : List Nat) (hl : cfg.priority1 = some priority1) (hne : priority1 ≠ []) :
    t.accountId ∈ priority1 := by
  have hcu := plan_buy_canUse u rates t ht hbuy sid hsid
  rw [hp] at hcu
  obtain ⟨psid, ptype, pcfg⟩ := p
  simp only at hr hcfg
  subst hr
  subst hcfg
  obtain ⟨al, p1, p2, p3⟩ := cfg
  simp only at hl
  subst hl
  have hie : priority1.isEmpty = false := by
    cases priority1 with
    | nil => exact absurd rfl hne
    | cons a l => rfl
  simp [canUse, hie] at hcu
  exact hcu

/-- C1 counterexample: security 11 carries a `restricted_to_accounts`
preference whose `allowed` list is empty, yet the planning run emits a BUY
that places security 11 in account 1 - an account not in the (empty)
`allowed` list - instead of skipping the asset class. -/
theorem restricted_empty_allowed_counterexample :
    restrictedEmptyPref.restrictionType = "restricted_to_accounts" ∧
    restrictedEmptyPref.accountConfig = some
      { allowed := some [], priority1 := none, priority2 := none, priority3 := none } ∧
    findPref restrictedEmptyUser.securityPreferences 11 = some restrictedEmptyPref ∧
    (generateRebalanceTransactions restrictedEmptyUser []).map
      (fun t => (t.action, t.accountId, t.securityId)) = [("BUY", 1, some 11)] ∧
    (1 : Nat) ∉ ([] : List Nat) := by
  refine ⟨rfl, rfl, rfl, ?_, by simp⟩
  with_unfolding_all decide

/-- C1 witness: with `allowed = [1]`, the plan's BUY of security 11 lands in
account 1, which the theorem confirms is in the `allowed` list. -/
theorem restricted_buy_within_allowed_witness :
    ({ accountId := 1, securityId := some 11, action := "BUY", quantity := 2, price := 50,
       amount := 100, currency := "CAD", executionOrder := 1, isFinalTrade := true,
       requiresUserSelection := false, availableSecurities := [], executed := false } :
        RebalanceTransaction) ∈ generateRebalanceTransactions restrictedAllowedUser [] ∧
      (1 : Nat) ∈ [1] := by
  have hmem :
      ({ accountId := 1, securityId := some 11, action := "BUY", quantity := 2, price := 50,
         amount := 100, currency := "CAD", executionOrder := 1, isFinalTrade := true,
         requiresUserSelection := false, availableSecurities := [], executed := false } :
          RebalanceTransaction) ∈ generateRebalanceTransactions restrictedAllowedUser [] := by
    with_unfolding_all decide
  exact ⟨hmem,
    restricted_buy_within_allowed restrictedAllowedUser [] _ hmem rfl 11 rfl _ rfl rfl _ rfl
      [1] rfl (by simp)⟩

/-- C3 counterexample: security 11 carries a `prioritized_accounts`
preference with `priority_1 = [2]`; contrary to the claim it is not
eligible in account 1 (the planner's `can_use` is false there), and the
planning run emits no BUY at all, while the identical snapshot without the
preference does buy security 11 in account 1. -/
theorem prioritized_excluded_counterexample :
    prioritizedPref.restrictionType = "prioritized_accounts" ∧
    findPref prioritizedExcludedUser.securityPreferences 11 = some prioritizedPref ∧
    canUse (some prioritizedPref) 1 = false ∧
    generateRebalanceTransactions prioritizedExcludedUser [] = [] ∧
    (generateRebalanceTransactions unrestrictedUser []).map
      (fun t => (t.action, t.accountId, t.securityId)) = [("BUY", 1, some 11)] := by
  refine ⟨rfl, rfl, by decide, ?_, ?_⟩ <;> with_unfolding_all decide

/-- C3 witness: with `priority_1 = [1]`, the plan's BUY of security 11 lands
in account 1, which the theorem confirms is in the `priority_1` list. -/
theorem prioritized_buy_within_priority1_witness :
    ({ accountId := 1, securityId := some 11, action := "BUY", quantity := 2, price := 50,
       amount := 100, currency := "CAD", executionOrder := 1, isFinalTrade := true,
       requiresUserSelection := false, availableSecurities := [], executed := false } :
        RebalanceTransaction) ∈ generateRebalanceTransactions prioritizedListedUser [] ∧
      (1 : Nat) ∈ [1] := by
  have hmem :
      ({ accountId := 1, securityId := some 11, action := "BUY", quantity := 2, price := 50,
         amount := 100, currency := "CAD", executionOrder := 1, isFinalTrade := true,
         requiresUserSelection := false, availableSecurities := [], executed := false } :
          RebalanceTransaction) ∈ generateRebalanceTransactions prioritizedListedUser [] := by
    with_unfolding_all decide
  exact ⟨hmem,
    prioritized_buy_within_priority1 prioritizedListedUser [] _ hmem rfl 11 rfl _ rfl rfl _ rfl
      [1] rfl (by simp)⟩

/-- C2 (violated by the code): on the double-spend snapshot the plan's BUY
amounts sum to 200 while the funding account holds only 100 of cash and no
SELL is generated - the conservation bound `sum(BUY) <= cash + sum(SELL)`
fails because the planner re-reads the account's cash balance for every
underweight asset class without deducting the amounts already committed. -/
theorem buys_exceed_cash_plus_sells :
    (((generateRebalanceTransactions doubleSpendUser []).filter
        (fun t => t.action == "BUY")).map (fun t => t.amount)).sum = 200 ∧
    ((generateRebalanceTransactions doubleSpendUser []).filter
        (fun t => t.action == "SELL")) = [] ∧
    doubleSpendUser.accounts.map Account.cashBalance = [100] ∧
    ¬ ((200 : ℚ) ≤ 100 + 0) := by
  refine ⟨?_, ?_, rfl, by norm_num⟩ <;> with_unfolding_all decide

lemma mem_keys_dictInsert {β : Type} (d : List (Nat × β)) (k kk : Nat) (v : β)
    (h : kk ∈ (dictInsert d k v).map Prod.fst) : kk = k ∨ kk ∈ d.map Prod.fst := by
  induction d with
  | nil =>
    rw [dictInsert, List.map_cons] at h
    exact Or.inl (List.mem_singleton.mp h)
  | cons q rest ih =>
    obtain ⟨k', v'⟩ := q
    rw [dictInsert] at h
    split at h
    · rw [List.map_cons] at h
      rcases List.mem_cons.mp h with h1 | h2
      · exact Or.inl h1
      · rw [List.map_cons]
        exact Or.inr (List.mem_cons_of_mem _ h2)
    · rw [List.map_cons] at h
      rcases List.mem_cons.mp h with h1 | h2
      · rw [List.map_cons]
        exact Or.inr (h1 ▸ List.mem_cons_self _ _)
      · rcases ih h2 with h3 | h4
        · exact Or.inl h3
        · rw [List.map_cons]
          exact Or.inr (List.mem_cons_of_mem _ h4)

lemma dictInsert_keys_nodup {β : Type} (d : List (Nat × β)) (k : Nat) (v : β)
    (hnd : (d.map Prod.fst).Nodup) : ((dictInsert d k v).map Prod.fst).Nodup := by
  induction d with
  | nil =>
    rw [dictInsert, List.map_cons]
    exact List.nodup_singleton k
  | cons q rest ih =>
    obtain ⟨k', v'⟩ := q
    rw [List.map_cons, List.nodup_cons] at hnd
    obtain ⟨hnotin, hndrest⟩ := hnd
    rw [dictInsert]
    split
    · rename_i hk
      subst hk
      rw [List.map_cons, List.nodup_cons]
      exact ⟨hnotin, hndrest⟩
    · rename_i hk
      rw [List.map_cons, List.nodup_cons]
      refine ⟨?_, ih hndrest⟩
      intro hmem
      rcases mem_keys_dictInsert rest k k' v hmem with h1 | h2
      · exact hk h1
      · exact hnotin h2

lemma mem_dictInsert {β : Type} (d : List (Nat × β)) (k : Nat) (v : β)
    (p : Nat × β) (hnd : (d.map Prod.fst).Nodup) (hp : p ∈ dictInsert d k v) :
    p = (k, v) ∨ (p ∈ d ∧ p.1 ≠ k) := by
  induction d with
  | nil => left; simpa [dictInsert] using hp
  | cons q rest ih =>
    obtain ⟨k', v'⟩ := q
    simp only [List.map_cons, List.nodup_cons] at hnd
    obtain ⟨hnotin, hndrest⟩ := hnd
    rw [dictInsert] at hp
    split at hp
    · rename_i hk
      subst hk
      rcases List.mem_cons.mp hp with h1 | h2
      · exact Or.inl h1
      · refine Or.inr ⟨List.mem_cons_of_mem _ h2, ?_⟩
        intro hpk
        exact hnotin (hpk ▸ List.mem_map_of_mem Prod.fst h2)
    · rename_i hk
      rcases List.mem_cons.mp hp with h1 | h2
      · refine Or.inr ⟨h1 ▸ List.mem_cons_self _ _, ?_⟩
        rw [h1]
        exact hk
      · rcases ih hndrest h2 with h3 | ⟨h4, h5⟩
        · exact Or.inl h3
        · exact Or.inr ⟨List.mem_cons_of_mem _ h4, h5⟩

lemma lastBuyMapAux_mem :
    ∀ (ts : List RebalanceTransaction) (i : Nat) (m : List (Nat × Nat)),
      (m.map Prod.fst).Nodup → ∀ (a k : Nat), (a, k) ∈ lastBuyMapAux i m ts →
      ((a, k) ∈ m ∧ ∀ t ∈ ts, ¬(t.action = "BUY" ∧ t.accountId = a)) ∨
      (∃ off t, ts[off]? = some t ∧ k = i + off ∧ t.action = "BUY" ∧ t.accountId = a ∧
        ∀ t' ∈ ts.drop (off + 1), ¬(t'.action = "BUY" ∧ t'.accountId = a)) := by
  intro ts
  induction ts with
  | nil =>
    intro i m _ a k hmem
    exact Or.inl ⟨by simpa [lastBuyMapAux] using hmem, by simp⟩
  | cons t rest ih =>
    intro i m hnd a k hmem
    rw [lastBuyMapAux] at hmem
    by_cases hb : t.action = "BUY"
    · rw [if_pos hb] at hmem
      rcases ih (i + 1) _ (dictInsert_keys_nodup m t.accountId i hnd) a k hmem with
        ⟨hm, hnb⟩ | ⟨off, t0, hoff, hk, hb0, ha0, hafter⟩
      · rcases mem_dictInsert m t.accountId i _ hnd hm with h1 | ⟨h2, hne⟩
        · right
          have ha : a = t.accountId := congrArg Prod.fst h1
          have hki : k = i := congrArg Prod.snd h1
          subst ha
          subst hki
          exact ⟨0, t, by simp, by simp, hb, rfl, by simpa using hnb⟩
        · left
          refine ⟨h2, ?_⟩
          intro t' ht'
          rcases List.mem_cons.mp ht' with h3 | h3

          · subst h3
            rintro ⟨_, hacc⟩
            exact hne (by simpa using hacc.symm)
          · exact hnb t' h3
      · right
        refine ⟨off + 1, t0, by simpa using hoff, by omega, hb0, ha0, by simpa using hafter⟩
    · rw [if_neg hb] at hmem
      rcases ih (i + 1) m hnd a k hmem with ⟨hm, hnb⟩ | ⟨off, t0, hoff, hk, hb0, ha0, hafter⟩
      · left
        refine ⟨hm, ?_⟩
        intro t' ht'
        rcases List.mem_cons.mp ht' with h3 | h3
        · subst h3
          rintro ⟨hB, _⟩
          exact hb hB
        · exact hnb t' h3
      · right
        exact ⟨off + 1, t0, by simpa using hoff, by omega, hb0, ha0, by simpa using hafter⟩

lemma lastBuyMap_mem (txns : List RebalanceTransaction) (a k : Nat)
    (h : (a, k) ∈ lastBuyMap txns) :
    ∃ t, txns[k]? = some t ∧ t.action = "BUY" ∧ t.accountId = a ∧
      ∀ t' ∈ txns.drop (k + 1), ¬(t'.action = "BUY" ∧ t'.accountId = a) := by
  rcases lastBuyMapAux_mem txns 0 [] (by simp) a k h with
    ⟨hm, _⟩ | ⟨off, t0, hoff, hk, hb0, ha0, hafter⟩
  · simp at hm
  · have : k = off := by omega
    subst this
    exact ⟨t0, hoff, hb0, ha0, hafter⟩

lemma markAux_getElem? (m : List (Nat × Nat)) :
    ∀ (ts : List RebalanceTransaction) (i j : Nat),
      (markAux m i ts)[j]? = (ts[j]?).map
        (fun t => if m.any (fun p => p.2 == i + j) then { t with isFinalTrade := true }
          else t) := by
  intro ts
  induction ts with
  | nil => intro i j; simp [markAux]
  | cons t rest ih =>
    intro i j
    rw [markAux]
    cases j with
    | zero => simp
    | succ j' =>
      have harith : i + 1 + j' = i + (j' + 1) := by omega
      rw [List.getElem?_cons_succ, ih (i + 1) j', harith, List.getElem?_cons_succ]

/-- C7: in every generated plan, a transaction flagged `is_final_trade` is a
BUY, no later transaction of the plan is a BUY for the same account (it is
the chronologically last BUY of its account, and SELLs are never flagged),
and it is the only flagged transaction for its account. -/
theorem final_trade_flag (u : User) (rates : Rates) (i : Nat) (t : RebalanceTransaction)
    (ht : (generateRebalanceTransactions u rates)[i]? = some t)
    (hflag : t.isFinalTrade = true) :
    t.action = "BUY" ∧
    (∀ j t', i < j → (generateRebalanceTransactions u rates)[j]? = some t' →
      t'.accountId = t.accountId → ¬ t'.action = "BUY") ∧
    (∀ j t', (generateRebalanceTransactions u rates)[j]? = some t' →
      t'.isFinalTrade = true → t'.accountId = t.accountId → j = i) := by
  by_cases hemp : (filteredDeltas u rates).isEmpty = true
  · rw [generateRebalanceTransactions, if_pos hemp] at ht
    simp at ht
  · simp only [generateRebalanceTransactions, if_neg hemp] at ht ⊢
    have hunf : ∀ t0 ∈ planTransactions u rates, t0.isFinalTrade = false :=
      fun t0 h0 => (planTransactions_ok u rates t0 h0).1
    have hchar : ∀ (n : Nat) (tx : RebalanceTransaction),
        (markFinalTrades (planTransactions u rates))[n]? = some tx →
        ∃ t0, (planTransactions u rates)[n]? = some t0 ∧
          (((lastBuyMap (planTransactions u rates)).any (fun p => p.2 == n) = true ∧
             tx = { t0 with isFinalTrade := true }) ∨
           ((lastBuyMap (planTransactions u rates)).any (fun p => p.2 == n) = false ∧
             tx = t0)) := by
      intro n tx hx
      rw [markFinalTrades, markAux_getElem?] at hx
      simp only [Nat.zero_add] at hx
      rcases Option.map_eq_some'.mp hx with ⟨t0, ht0, hf⟩
      refine ⟨t0, ht0, ?_⟩
      by_cases hc : (lastBuyMap (planTransactions u rates)).any (fun p => p.2 == n) = true
      · left
        exact ⟨hc, by rw [← hf, if_pos hc]⟩
      · right
        refine ⟨Bool.not_eq_true _ ▸ hc, ?_⟩
        rw [← hf, if_neg hc]
    obtain ⟨t0, ht0, hcase⟩ := hchar i t ht
    rcases hcase with ⟨hc, rfl⟩ | ⟨_, heq0⟩
    · obtain ⟨⟨a, kk⟩, hpM, hpk⟩ := List.any_eq_true.mp hc
      have hkk : kk = i := by simpa using hpk
      rw [hkk] at hpM
      obtain ⟨tb, htb, hbBuy, hbAcc, hafter⟩ :=
        lastBuyMap_mem (planTransactions u rates) a i hpM
      have htb0 : tb = t0 := Option.some.inj (htb.symm.trans ht0)
      rw [htb0] at hbBuy hbAcc
      refine ⟨hbBuy, ?_, ?_⟩
      · intro j t' hij ht' hacc hbuy'
        obtain ⟨t0', ht0', hcase'⟩ := hchar j t' ht'
        have haction : t'.action = t0'.action := by
          rcases hcase' with ⟨_, rfl⟩ | ⟨_, rfl⟩ <;> rfl
        have haccount : t'.accountId = t0'.accountId := by
          rcases hcase' with ⟨_, rfl⟩ | ⟨_, rfl⟩ <;> rfl
        have hdropmem : t0' ∈ (planTransactions u rates).drop (i + 1) := by
          apply List.getElem?_mem (n := j - (i + 1))
          rw [List.getElem?_drop]
          have harith : (i + 1) + (j - (i + 1)) = j := by omega
          rw [harith]
          exact ht0'
        have hacc0 : t'.accountId = t0.accountId := hacc
        exact hafter t0' hdropmem
          ⟨haction ▸ hbuy', haccount.symm.trans (hacc0.trans hbAcc)⟩
      · intro j t' ht' hflag' hacc
        obtain ⟨t0', ht0', hcase'⟩ := hchar j t' ht'
        rcases hcase' with ⟨hc', heq'⟩ | ⟨_, heq'⟩
        · obtain ⟨⟨a', kk'⟩, hpM', hpk'⟩ := List.any_eq_true.mp hc'
          have hkk' : kk' = j := by simpa using hpk'
          rw [hkk'] at hpM'
          obtain ⟨tb', htb', hbBuy', hbAcc', hafter'⟩ :=
            lastBuyMap_mem (planTransactions u rates) a' j hpM'
          have htb0' : tb' = t0' := Option.some.inj (htb'.symm.trans ht0')
          rw [htb0'] at hbBuy' hbAcc'
          have hacc0 : t'.accountId = t0.accountId := hacc
          have hacc0' : t'.accountId = t0'.accountId := by rw [heq']
          rcases Nat.lt_trichotomy j i with hji | hji | hji
          · exfalso
            have hdropmem : t0 ∈ (planTransactions u rates).drop (j + 1) := by
              apply List.getElem?_mem (n := i - (j + 1))
              rw [List.getElem?_drop]
              have harith : (j + 1) + (i - (j + 1)) = i := by omega
              rw [harith]
              exact ht0
            exact hafter' t0 hdropmem
              ⟨hbBuy, hacc0.symm.trans (hacc0'.trans hbAcc')⟩
          · exact hji
          · exfalso
            have hdropmem : t0' ∈ (planTransactions u rates).drop (i + 1) := by
              apply List.getElem?_mem (n := j - (i + 1))
              rw [List.getElem?_drop]
              have harith : (i + 1) + (j - (i + 1)) = j := by omega
              rw [harith]
              exact ht0'
            exact hafter t0' hdropmem
              ⟨hbBuy', (hacc0'.symm.trans hacc0).trans hbAcc⟩
        · exfalso
          rw [heq'] at hflag'
          rw [hunf t0' (List.getElem?_mem ht0')] at hflag'
          exact Bool.false_ne_true hflag'
    · exfalso
      rw [heq0] at hflag
      rw [hunf t0 (List.getElem?_mem ht0)] at hflag
      exact Bool.false_ne_true hflag

/-- C7 witness: position 1 of the double-spend snapshot's plan is flagged as
the final trade for account 1, and the theorem confirms it is the account's
chronologically last BUY and the only flagged transaction. -/
theorem final_trade_flag_witness :
    (generateRebalanceTransactions doubleSpendUser [])[1]? = some exFinalTxn ∧
    exFinalTxn.isFinalTrade = true ∧
    (exFinalTxn.action = "BUY" ∧
      (∀ j t', 1 < j → (generateRebalanceTransactions doubleSpendUser [])[j]? = some t' →
        t'.accountId = exFinalTxn.accountId → ¬ t'.action = "BUY") ∧
      (∀ j t', (generateRebalanceTransactions doubleSpendUser [])[j]? = some t' →
        t'.isFinalTrade = true → t'.accountId = exFinalTxn.accountId → j = 1)) := by
  have h1 : (generateRebalanceTransactions doubleSpendUser [])[1]? = some exFinalTxn := by
    with_unfolding_all decide
  exact ⟨h1, rfl, final_trade_flag doubleSpendUser [] 1 exFinalTxn h1 rfl⟩

end PortfolioRebalancer
